import Mathlib

/-
  Verification of the HttplibApp core (trie router and JWT engine) against its
  natural-language specification.

  Shallow embedding conventions:
  * C++ byte strings (std::string / string_view / ByteBuffer) are `List Char`.
  * std::unordered_map / std::map with unique keys are association lists; the
    only operations the sources use are find (first match) and operator[]
    (replace-or-append), which agree with the C++ semantics on unique keys.
  * C++ `double` is embedded as `Rat`: `std::floor(v) == v` on finite doubles
    is exactly the "integral value" test, which on `Rat` is `(q.floor : Rat) = q`.
  * Providers (ICryptoProvider / IJsonProvider) are records of functions; each
    fallible C++ operation returning an `Error` and writing an out-parameter is
    a function returning `Error × result`.
  * Wall-clock time (`std::time(nullptr)`) is an explicit `now : Int` argument.
-/

abbrev Str := List Char

/-- Association-list lookup: the first entry with the given key (C++ map::find). -/
def alookup {α β : Type} [DecidableEq α] : List (α × β) → α → Option β
  | [], _ => none
  | (k0, v0) :: rest, k => if k0 = k then some v0 else alookup rest k

/-- Association-list update: replace the entry if the key exists, else append
(C++ map::operator[] followed by assignment). -/
def setAssoc {α β : Type} [DecidableEq α] : List (α × β) → α → β → List (α × β)
  | [], k, v => [(k, v)]
  | (k0, v0) :: rest, k, v => if k0 = k then (k0, v) :: rest else (k0, v0) :: setAssoc rest k v

theorem alookup_setAssoc_self {α β : Type} [DecidableEq α]
    (l : List (α × β)) (k : α) (v : β) : alookup (setAssoc l k v) k = some v := by
  induction l with
  | nil => simp [setAssoc, alookup]
  | cons hd tl ih =>
    obtain ⟨k0, v0⟩ := hd
    by_cases h : k0 = k
    · simp [setAssoc, alookup, h]
    · simp [setAssoc, alookup, h, ih]

-- ===========================================================================
-- JWT data model (include/Jwt.h)
-- ===========================================================================

inductive JwtAlg where
  | HS256
  | RS256
  | ES256
  | EdDSA
deriving DecidableEq, Repr

inductive ErrorCode where
  | Ok
  | InvalidFormat
  | InvalidBase64Url
  | InvalidJson
  | UnsupportedAlg
  | KeyNotFound
  | SignatureMismatch
  | Expired
  | NotYetValid
  | InvalidIssuer
  | InvalidAudience
  | PolicyViolation
  | CryptoError
  | JsonError
  | IOError
  | CertificateNotFound
deriving DecidableEq, Repr

structure Error where
  code : ErrorCode
  message : Str
deriving DecidableEq, Repr

def makeError (code : ErrorCode) (message : Str := []) : Error :=
  { code := code, message := message }

/-- ClaimValue: std::variant of null, bool, int64_t, double, string.
The double alternative is embedded as `Rat` (see the header comment). -/
inductive ClaimValue where
  | nullV
  | boolV (b : Bool)
  | intV (i : Int)
  | doubleV (d : Rat)
  | strV (s : Str)
deriving DecidableEq, Repr

abbrev ClaimMap := List (Str × ClaimValue)
abbrev HeaderMap := ClaimMap

structure Policy where
  allowedAlgs : List JwtAlg
  expectedIss : Option Str
  expectedAud : Option Str
  leewaySeconds : Int
  requireExp : Bool
  requireNbf : Bool
deriving DecidableEq, Repr

/-- Crypto provider interface (ICryptoProvider): only the operations the
verification/signing pipeline uses. Out-parameters become the second
component of the result pair. -/
structure CryptoProvider where
  sign : JwtAlg → Str → Str → Error × Str
  verify : JwtAlg → Str → Str → Str → Error
  base64UrlEncode : Str → Error × Str
  base64UrlDecode : Str → Error × Str

/-- JSON provider interface (IJsonProvider). -/
structure JsonProvider where
  parseHeader : Str → Error × HeaderMap
  parseClaims : Str → Error × ClaimMap
  toJson : ClaimMap → Error × Str

-- ===========================================================================
-- Jwt.cpp anonymous-namespace helpers
-- ===========================================================================

def algKey : Str := "alg".toList
def kidKey : Str := "kid".toList
def issKey : Str := "iss".toList
def audKey : Str := "aud".toList
def expKey : Str := "exp".toList
def nbfKey : Str := "nbf".toList

/-- getStringValue: the claim value if present and of string alternative. -/
def getStringValue (map : HeaderMap) (key : Str) : Option Str :=
  match alookup map key with
  | some (ClaimValue.strV s) => some s
  | _ => none

/-- getIntValue: an int64 claim, or a double claim whose floor equals itself
(std::floor (v) == v), cast to the integer; otherwise absent. -/
def getIntValue (map : ClaimMap) (key : Str) : Option Int :=
  match alookup map key with
  | some (ClaimValue.intV i) => some i
  | some (ClaimValue.doubleV d) =>
      let rounded : Int := d.floor
      if (rounded : Rat) = d then some rounded else none
  | _ => none

/-- getStringClaim: identical to getStringValue but on the claim map. -/
def getStringClaim (map : ClaimMap) (key : Str) : Option Str :=
  match alookup map key with
  | some (ClaimValue.strV s) => some s
  | _ => none

def fromAlgString (alg : Str) : Option JwtAlg :=
  if alg = "HS256".toList then some JwtAlg.HS256
  else if alg = "RS256".toList then some JwtAlg.RS256
  else if alg = "ES256".toList then some JwtAlg.ES256
  else if alg = "EdDSA".toList then some JwtAlg.EdDSA
  else none

def toAlgString (alg : JwtAlg) : Str :=
  match alg with
  | JwtAlg.HS256 => "HS256".toList
  | JwtAlg.RS256 => "RS256".toList
  | JwtAlg.ES256 => "ES256".toList
  | JwtAlg.EdDSA => "EdDSA".toList

/-- containsAlg: an empty whitelist allows every algorithm, otherwise
membership (std::find) decides. -/
def containsAlg (allowed : List JwtAlg) (alg : JwtAlg) : Bool :=
  if allowed.isEmpty then true else decide (alg ∈ allowed)

/-- validatePolicy nbf stage (Jwt.cpp lines 155-166). -/
def validateNbf (now : Int) (policy : Policy) (claims : ClaimMap) : Error :=
  if policy.requireNbf then
    match getIntValue claims nbfKey with
    | none => makeError ErrorCode.PolicyViolation "nbf claim is required by policy".toList
    | some nbf =>
      if now + policy.leewaySeconds < nbf then
        makeError ErrorCode.NotYetValid "Token not valid yet".toList
      else makeError ErrorCode.Ok
  else makeError ErrorCode.Ok

/-- validatePolicy exp stage (Jwt.cpp lines 142-153), falling through to the
nbf stage. -/
def validateExp (now : Int) (policy : Policy) (claims : ClaimMap) : Error :=
  if policy.requireExp then
    match getIntValue claims expKey with
    | none => makeError ErrorCode.PolicyViolation "exp claim is required by policy".toList
    | some e =>
      if now > e + policy.leewaySeconds then
        makeError ErrorCode.Expired "Token has expired".toList
      else validateNbf now policy claims
  else validateNbf now policy claims

/-- validatePolicy aud stage (Jwt.cpp lines 131-138). -/
def validateAud (now : Int) (policy : Policy) (claims : ClaimMap) : Error :=
  match policy.expectedAud with
  | some expAud =>
    if getStringClaim claims audKey = some expAud then validateExp now policy claims
    else makeError ErrorCode.InvalidAudience "Audience claim does not match policy".toList
  | none => validateExp now policy claims

/-- validatePolicy (Jwt.cpp lines 120-169): issuer, audience, exp, nbf checks
in order, first failure wins. `now` is the wall-clock argument. -/
def validatePolicy (now : Int) (policy : Policy) (claims : ClaimMap) : Error :=
  match policy.expectedIss with
  | some expIss =>
    if getStringClaim claims issKey = some expIss then validateAud now policy claims
    else makeError ErrorCode.InvalidIssuer "Issuer claim does not match policy".toList
  | none => validateAud now policy claims

-- ===========================================================================
-- Verifier accessors (Jwt.cpp lines 264-307)
-- ===========================================================================

/-- Verifier::claimDouble: the stored double, or an int64 converted to double;
absent for every other alternative and for a missing claim. -/
def claimDouble (claims : ClaimMap) (name : Str) : Option Rat :=
  match alookup claims name with
  | some (ClaimValue.doubleV d) => some d
  | some (ClaimValue.intV i) => some (i : Rat)
  | _ => none

-- ===========================================================================
-- TokenBuilder::sign (Jwt.cpp lines 400-461)
-- ===========================================================================

/-- TokenBuilder::sign. `outToken` is the caller's token variable before the
call; the result pair is (returned error, token variable after the call).
Every failure path leaves the token variable untouched, mirroring the early
returns of the C++ function. -/
def signToken (crypto : CryptoProvider) (json : JsonProvider)
    (header : HeaderMap) (claims : ClaimMap) (outToken : Str) : Error × Str :=
  match getStringValue header algKey with
  | none => (makeError ErrorCode.UnsupportedAlg "Missing algorithm in token header".toList, outToken)
  | some algText =>
  match fromAlgString algText with
  | none => (makeError ErrorCode.UnsupportedAlg "Unsupported algorithm in token header".toList, outToken)
  | some alg =>
  match getStringValue header kidKey with
  | none => (makeError ErrorCode.KeyNotFound "Missing kid in token header".toList, outToken)
  | some kidText =>
  let rHeaderJson := json.toJson header
  if rHeaderJson.1.code ≠ ErrorCode.Ok then (rHeaderJson.1, outToken) else
  let rPayloadJson := json.toJson claims
  if rPayloadJson.1.code ≠ ErrorCode.Ok then (rPayloadJson.1, outToken) else
  let rHeaderB64 := crypto.base64UrlEncode rHeaderJson.2
  if rHeaderB64.1.code ≠ ErrorCode.Ok then (rHeaderB64.1, outToken) else
  let rPayloadB64 := crypto.base64UrlEncode rPayloadJson.2
  if rPayloadB64.1.code ≠ ErrorCode.Ok then (rPayloadB64.1, outToken) else
  let signingInput := rHeaderB64.2 ++ ['.'] ++ rPayloadB64.2
  let rSignature := crypto.sign alg kidText signingInput
  if rSignature.1.code ≠ ErrorCode.Ok then (rSignature.1, outToken) else
  let rSignatureB64 := crypto.base64UrlEncode rSignature.2
  if rSignatureB64.1.code ≠ ErrorCode.Ok then (rSignatureB64.1, outToken) else
  (makeError ErrorCode.Ok, signingInput ++ ['.'] ++ rSignatureB64.2)

-- ===========================================================================
-- Jwt::verify (Jwt.cpp lines 522-629)
-- ===========================================================================

structure VerifierState where
  ok : Bool
  error : Error
  rawToken : Str
  rawHeaderJson : Str
  rawPayloadJson : Str
  header : HeaderMap
  claims : ClaimMap
deriving DecidableEq, Repr

/-- A freshly constructed Verifier (all fields empty, ok=false, error Ok). -/
def emptyVerifier : VerifierState :=
  { ok := false, error := makeError ErrorCode.Ok, rawToken := [],
    rawHeaderJson := [], rawPayloadJson := [], header := [], claims := [] }

/-- Splitting a byte string on a separator character. The token `a.b.c` has
exactly two dots iff this returns exactly three parts; the three parts are
then identical to the substrings the C++ code takes around `firstDot` and
`secondDot`. -/
def splitChar (sep : Char) : Str → List Str
  | [] => [[]]
  | c :: cs =>
    if c = sep then [] :: splitChar sep cs
    else
      match splitChar sep cs with
      | [] => [[c]]
      | s :: ss => (c :: s) :: ss

def splitDots (token : Str) : List Str := splitChar '.' token

/-- Jwt::verify, stage after the kid header has been read: crypto signature
verification over headerPart ++ "." ++ payloadPart, then policy validation. -/
def verifyKid (crypto : CryptoProvider) (policy : Policy) (now : Int)
    (v : VerifierState) (headerPart payloadPart signatureBytes : Str) (alg : JwtAlg) : VerifierState :=
  match getStringValue v.header kidKey with
  | none => { v with error := makeError ErrorCode.KeyNotFound "Missing kid header".toList }
  | some kidText =>
    let signingInput := headerPart ++ ['.'] ++ payloadPart
    let e := crypto.verify alg kidText signingInput signatureBytes
    if e.code ≠ ErrorCode.Ok then { v with error := e } else
    let e2 := validatePolicy now policy v.claims
    if e2.code ≠ ErrorCode.Ok then { v with error := e2 } else
    { v with ok := true, error := makeError ErrorCode.Ok }

/-- Jwt::verify, stage reading and checking the alg header: missing alg,
unknown alg, then the policy whitelist (containsAlg). -/
def verifyAlg (crypto : CryptoProvider) (policy : Policy) (now : Int)
    (v : VerifierState) (headerPart payloadPart signatureBytes : Str) : VerifierState :=
  match getStringValue v.header algKey with
  | none => { v with error := makeError ErrorCode.UnsupportedAlg "Missing alg header".toList }
  | some algText =>
  match fromAlgString algText with
  | none => { v with error := makeError ErrorCode.UnsupportedAlg "Unknown algorithm".toList }
  | some alg =>
    if containsAlg policy.allowedAlgs alg then
      verifyKid crypto policy now v headerPart payloadPart signatureBytes alg
    else { v with error := makeError ErrorCode.UnsupportedAlg "Algorithm not allowed by policy".toList }

/-- Jwt::verify, stage after the three-part split: base64url-decode the three
parts, record the raw JSON texts, parse header then claims. The parsed maps
are stored in the verifier before the corresponding error check, mirroring
the C++ code that passes the verifier's own fields as out-parameters. -/
def verifyDecode (crypto : CryptoProvider) (json : JsonProvider) (policy : Policy) (now : Int)
    (v : VerifierState) (headerPart payloadPart signaturePart : Str) : VerifierState :=
  let r1 := crypto.base64UrlDecode headerPart
  if r1.1.code ≠ ErrorCode.Ok then { v with error := r1.1 } else
  let r2 := crypto.base64UrlDecode payloadPart
  if r2.1.code ≠ ErrorCode.Ok then { v with error := r2.1 } else
  let r3 := crypto.base64UrlDecode signaturePart
  if r3.1.code ≠ ErrorCode.Ok then { v with error := r3.1 } else
  let v1 := { v with rawHeaderJson := r1.2, rawPayloadJson := r2.2 }
  let r4 := json.parseHeader v1.rawHeaderJson
  let v2 := { v1 with header := r4.2 }
  if r4.1.code ≠ ErrorCode.Ok then { v2 with error := r4.1 } else
  let r5 := json.parseClaims v2.rawPayloadJson
  let v3 := { v2 with claims := r5.2 }
  if r5.1.code ≠ ErrorCode.Ok then { v3 with error := r5.1 } else
  verifyAlg crypto policy now v3 headerPart payloadPart r3.2

/-- Jwt::verify (Jwt.cpp lines 522-629). The returned VerifierState is the
outVerifier after the call; the C++ return value equals its error field on
every path. The format check requires exactly two dots (three parts, not
checked for emptiness): no dot yields the first InvalidFormat message, any
other wrong dot count the second. -/
def jwtVerify (crypto : CryptoProvider) (json : JsonProvider) (policy : Policy)
    (now : Int) (token : Str) : VerifierState :=
  let v := { emptyVerifier with rawToken := token }
  match splitDots token with
  | [_] => { v with error := makeError ErrorCode.InvalidFormat "Token must contain 3 parts".toList }
  | [headerPart, payloadPart, signaturePart] =>
      verifyDecode crypto json policy now v headerPart payloadPart signaturePart
  | _ => { v with error := makeError ErrorCode.InvalidFormat "Token must contain exactly 3 parts".toList }

-- ===========================================================================
-- Router data model and validators (Route.cpp)
-- ===========================================================================

inductive HttpMethod where
  | GET
  | POST
  | PUT
  | PATCH
  | DELETE_
  | OPTIONS
  | HEAD
  | ANY
deriving DecidableEq, Repr

inductive ParamType where
  | INT
  | BASE64ID
  | STRING
  | UUID
  | FLOAT
  | GENERIC
deriving DecidableEq, Repr

/-- The uint8_t value behind each ParamType tag: the specificity rank. -/
def rank : ParamType → Nat
  | ParamType.INT => 0
  | ParamType.BASE64ID => 1
  | ParamType.STRING => 2
  | ParamType.UUID => 3
  | ParamType.FLOAT => 4
  | ParamType.GENERIC => 255

/-- validateIntParam (Route.cpp lines 33-60): optional sign, then one or more
decimal digits. -/
def validateIntParam (value : Str) : Bool :=
  match value with
  | [] => false
  | c :: rest =>
    let body := if c = '-' ∨ c = '+' then rest else c :: rest
    !body.isEmpty && body.all Char.isDigit

def isB64UrlChar (c : Char) : Bool :=
  c.isAlphanum || c = '-' || c = '_'

/-- validateBase64IdParam (Route.cpp lines 67-101): 22 chars unpadded or 24
chars ending in two padding chars; payload alphanumeric or url-safe. -/
def validateBase64IdParam (value : Str) : Bool :=
  if value.length ≠ 22 ∧ value.length ≠ 24 then false
  else if value.length = 24 ∧ value.drop 22 ≠ ['=', '='] then false
  else (value.take 22).all isB64UrlChar

def isHexDigitChar (c : Char) : Bool :=
  c.isDigit || ('a' ≤ c && c ≤ 'f') || ('A' ≤ c && c ≤ 'F')

def uuidCheckFrom : Nat → Str → Bool
  | _, [] => true
  | i, c :: rest =>
    (if i = 8 ∨ i = 13 ∨ i = 18 ∨ i = 23 then c = '-' else isHexDigitChar c)
      && uuidCheckFrom (i + 1) rest

/-- validateUuidParam (Route.cpp lines 108-133): 36 chars, hyphens at 8, 13,
18, 23, hex digits elsewhere. -/
def validateUuidParam (value : Str) : Bool :=
  value.length = 36 && uuidCheckFrom 0 value

def floatLoop : Str → Bool → Bool → Bool
  | [], hasDigit, _ => hasDigit
  | c :: rest, hasDigit, hasDot =>
    if c.isDigit then floatLoop rest true hasDot
    else if c = '.' ∧ hasDot = false then floatLoop rest hasDigit true
    else false

/-- validateFloatParam (Route.cpp lines 140-180): optional sign, then digits
with at most one dot, and at least one digit. -/
def validateFloatParam (value : Str) : Bool :=
  match value with
  | [] => false
  | c :: rest =>
    let body := if c = '-' ∨ c = '+' then rest else c :: rest
    if body.isEmpty then false else floatLoop body false false

/-- TypedParam::validate (Route.cpp lines 265-286). -/
def validateParam (t : ParamType) (value : Str) : Bool :=
  match t with
  | ParamType.INT => validateIntParam value
  | ParamType.BASE64ID => validateBase64IdParam value
  | ParamType.UUID => validateUuidParam value
  | ParamType.FLOAT => validateFloatParam value
  | ParamType.STRING => !value.isEmpty
  | ParamType.GENERIC => true

structure RouteInfo where
  pattern : Str
  method : HttpMethod
  handler : Nat
  middlewares : List Nat
deriving DecidableEq, Repr

/-- TrieNode: literal children (std::map keyed by segment), the TypedParam
sequence (name, type, child; kept sorted by ascending rank), and the handler
map (std::map keyed by method). Handlers and middlewares are opaque values
represented by numeric identifiers. -/
inductive TrieNode where
  | mk : List (Str × TrieNode) → List (Str × ParamType × TrieNode) →
      List (HttpMethod × RouteInfo) → TrieNode

abbrev TypedParamEntry := Str × ParamType × TrieNode

def TrieNode.literals : TrieNode → List (Str × TrieNode)
  | TrieNode.mk l _ _ => l

def TrieNode.typedParams : TrieNode → List TypedParamEntry
  | TrieNode.mk _ t _ => t

def TrieNode.handlers : TrieNode → List (HttpMethod × RouteInfo)
  | TrieNode.mk _ _ h => h

def emptyNode : TrieNode := TrieNode.mk [] [] []

/-- TrieNode::getHandler (Route.cpp lines 246-259): specific method first,
then fallback to ANY. -/
def TrieNode.getHandler (n : TrieNode) (method : HttpMethod) : Option RouteInfo :=
  match alookup n.handlers method with
  | some r => some r
  | none => alookup n.handlers HttpMethod.ANY

-- ===========================================================================
-- Router::Impl path splitting and segment parsing (Route.cpp lines 372-470)
-- ===========================================================================

/-- The C++ split loop of splitPath: while start < size, find the next slash;
push the segment before it (or the remainder); a slash as last character ends
the loop without pushing a further (empty) segment. -/
def splitGo : Str → Str → List Str
  | [], cur => [cur.reverse]
  | c :: rest, cur =>
    if c = '/' then
      cur.reverse :: (match rest with
        | [] => []
        | _ :: _ => splitGo rest [])
    else splitGo rest (c :: cur)

/-- Router::Impl::splitPath: remove one trailing slash (only when longer than
one char), remove one leading slash, return no segments for the empty
remainder, else run the split loop. -/
def splitPath (path : Str) : List Str :=
  let p1 := if path.getLast? = some '/' ∧ path.length > 1 then path.dropLast else path
  let p2 := if p1.head? = some '/' then p1.drop 1 else p1
  match p2 with
  | [] => []
  | _ :: _ => splitGo p2 []

structure ParsedSegment where
  isParamSeg : Bool
  name : Str
  type : ParamType
deriving DecidableEq, Repr

/-- Mapping of the type string inside angle brackets to a ParamType; unknown
type strings collapse to GENERIC. -/
def typeOfString (typeStr : Str) : ParamType :=
  if typeStr = "int".toList then ParamType.INT
  else if typeStr = "base64id".toList then ParamType.BASE64ID
  else if typeStr = "string".toList then ParamType.STRING
  else if typeStr = "uuid".toList then ParamType.UUID
  else if typeStr = "float".toList then ParamType.FLOAT
  else ParamType.GENERIC

/-- Splitting `name:type` at the first colon, if any. -/
def breakColon : Str → Option (Str × Str)
  | [] => none
  | c :: rest =>
    if c = ':' then some ([], rest)
    else
      match breakColon rest with
      | some (a, b) => some (c :: a, b)
      | none => none

/-- Router::Impl::parseSegment (Route.cpp lines 414-470). -/
def parseSegment (segment : Str) : ParsedSegment :=
  if segment.head? = some '<' ∧ segment.getLast? = some '>' then
    let inner := (segment.drop 1).dropLast
    match breakColon inner with
    | some (n, typeStr) => { isParamSeg := true, name := n, type := typeOfString typeStr }
    | none => { isParamSeg := true, name := inner, type := ParamType.GENERIC }
  else { isParamSeg := false, name := segment, type := ParamType.GENERIC }

-- ===========================================================================
-- Registration and matching (Route.cpp lines 292-370, 472-503)
-- ===========================================================================

/-- The typed-parameter part of Router::Impl::getOrCreateNode: walk the
rank-sorted TypedParam sequence as std::lower_bound does; reuse the entry
with the same type (keeping its stored capture name) or insert a new entry at
the position that keeps the sequence sorted. `f` builds/extends the subtree
below the chosen entry. -/
def placeTyped (tps : List TypedParamEntry) (nm : Str) (t : ParamType)
    (f : TrieNode → TrieNode) : List TypedParamEntry :=
  match tps with
  | [] => [(nm, t, f emptyNode)]
  | (n0, t0, c0) :: rest =>
    if rank t0 < rank t then (n0, t0, c0) :: placeTyped rest nm t f
    else if t0 = t then (n0, t0, f c0) :: rest
    else (nm, t, f emptyNode) :: (n0, t0, c0) :: rest

/-- The registration walk of Router::Impl::add: one getOrCreateNode step per
segment, then install the RouteInfo under the method at the final node. -/
def addSegs (node : TrieNode) (segs : List Str) (method : HttpMethod)
    (info : RouteInfo) : TrieNode :=
  match segs with
  | [] => TrieNode.mk node.literals node.typedParams (setAssoc node.handlers method info)
  | seg :: rest =>
    let p := parseSegment seg
    if p.isParamSeg then
      TrieNode.mk node.literals
        (placeTyped node.typedParams p.name p.type (fun child => addSegs child rest method info))
        node.handlers
    else
      TrieNode.mk
        (setAssoc node.literals p.name
          (addSegs ((alookup node.literals p.name).getD emptyNode) rest method info))
        node.typedParams node.handlers

/-- Router::Impl::add (Route.cpp lines 292-309). -/
def routerAdd (root : TrieNode) (method : HttpMethod) (pattern : Str)
    (handler : Nat) : TrieNode :=
  addSegs root (splitPath pattern) method
    { pattern := pattern, method := method, handler := handler, middlewares := [] }

/-- The matching context: ICtx::setParam records name → raw segment text. -/
abbrev Ctx := List (Str × Str)

def setParam (ctx : Ctx) (name value : Str) : Ctx := ctx ++ [(name, value)]

/-- The TypedParam scan of Router::Impl::match: first entry, in stored order,
whose validator accepts the segment. -/
def firstValidating : List TypedParamEntry → Str → Option TypedParamEntry
  | [], _ => none
  | (n0, t0, c0) :: rest, seg =>
    if validateParam t0 seg then some (n0, t0, c0) else firstValidating rest seg

/-- The trie walk of Router::Impl::match (Route.cpp lines 321-370): exact
literal child first, else the first accepting TypedParam (recording the
capture), else failure; at the end of the path, TrieNode::getHandler. -/
def matchSegs (method : HttpMethod) : TrieNode → List Str → Ctx → Option RouteInfo × Ctx
  | node, [], ctx => (node.getHandler method, ctx)
  | node, seg :: rest, ctx =>
    match alookup node.literals seg with
    | some child => matchSegs method child rest ctx
    | none =>
      match firstValidating node.typedParams seg with
      | some (nm, _, next) => matchSegs method next rest (setParam ctx nm seg)
      | none => (none, ctx)

/-- Router::Impl::match on a raw path. -/
def matchRoute (root : TrieNode) (method : HttpMethod) (path : Str) (ctx : Ctx) :
    Option RouteInfo × Ctx :=
  matchSegs method root (splitPath path) ctx

-- ===========================================================================
-- Router::execute middleware chain
-- ===========================================================================

/-- A middleware over context state σ: it receives the state and the "next"
capability (the rest of the chain as a state transformer) and yields the
final state. Not invoking the capability short-circuits the chain. -/
abbrev Mw (σ : Type) := σ → (σ → σ) → σ

/-- Modelled from the spec: `Router::execute` is declared in include/Route.h
(lines 114-118) but its definition is not among the sources; per the spec it
builds a chain that runs each global middleware in registration order, then
each per-route middleware in registration order, then the final handler, the
chain advancing only when a middleware invokes its "next" capability. -/
def runChain {σ : Type} (mws : List (Mw σ)) (handler : σ → σ) (s : σ) : σ :=
  match mws with
  | [] => handler s
  | mw :: rest => mw s (fun s2 => runChain rest handler s2)

/-- Modelled from the spec: Router::execute composes the router's global
middleware sequence with the route's own middleware sequence, then the
handler. -/
def routerExecute {σ : Type} (globals routeMws : List (Mw σ)) (handler : σ → σ)
    (s : σ) : σ :=
  runChain (globals ++ routeMws) handler s

/-- Instrumented middleware: appends its identifier to the trace, then either
invokes "next" on the extended trace or stops. -/
def traceMw (p : Nat × Bool) : Mw (List Nat) :=
  fun s next => if p.2 then next (s ++ [p.1]) else s ++ [p.1]

def traceHandler (h : Nat) : List Nat → List Nat := fun s => s ++ [h]

/-- The trace the chain contract prescribes: every middleware identifier up to
and including the first one that does not call "next"; the handler identifier
at the end only when every middleware called "next". -/
def firedTrace : List (Nat × Bool) → Nat → List Nat
  | [], h => [h]
  | (i, b) :: rest, h => if b then i :: firedTrace rest h else [i]

-- ===========================================================================
-- Concrete providers used by witnesses and counterexamples
-- ===========================================================================

/-- A crypto provider whose base64url codec is the identity on the byte text
and whose sign/verify always succeed, sign returning the input bytes. -/
def idCrypto : CryptoProvider :=
  { sign := fun _ _ data => (makeError ErrorCode.Ok, data)
    verify := fun _ _ _ _ => makeError ErrorCode.Ok
    base64UrlEncode := fun data => (makeError ErrorCode.Ok, data)
    base64UrlDecode := fun text => (makeError ErrorCode.Ok, text) }

/-- A JSON provider that rejects every parse with InvalidJson. -/
def rejectingJson : JsonProvider :=
  { parseHeader := fun _ => (makeError ErrorCode.InvalidJson "invalid".toList, [])
    parseClaims := fun _ => (makeError ErrorCode.InvalidJson "invalid".toList, [])
    toJson := fun _ => (makeError ErrorCode.Ok, []) }

def hs256Header : HeaderMap :=
  [(algKey, ClaimValue.strV "HS256".toList), (kidKey, ClaimValue.strV "k1".toList)]

/-- A JSON provider that parses every header to an HS256/k1 header map, every
payload to the empty claim map, and serializes everything to "j". -/
def stubJson : JsonProvider :=
  { parseHeader := fun _ => (makeError ErrorCode.Ok, hs256Header)
    parseClaims := fun _ => (makeError ErrorCode.Ok, [])
    toJson := fun _ => (makeError ErrorCode.Ok, "j".toList) }

def anyAlgPolicy : Policy :=
  { allowedAlgs := [], expectedIss := none, expectedAud := none,
    leewaySeconds := 0, requireExp := false, requireNbf := false }

def rs256OnlyPolicy : Policy :=
  { allowedAlgs := [JwtAlg.RS256], expectedIss := none, expectedAud := none,
    leewaySeconds := 0, requireExp := false, requireNbf := false }

-- ===========================================================================
-- C9: Verifier::claimDouble coercions
-- ===========================================================================

/-- C9: for every parsed claim map and claim name, claimDouble returns the
stored value when the claim is a double, the value converted to double when
the claim is stored as a signed 64-bit integer, and absent when the claim is
missing or stored as null, bool, or string. -/
theorem claimDouble_spec (claims : ClaimMap) (name : Str) :
    (∀ d : Rat, alookup claims name = some (ClaimValue.doubleV d) →
        claimDouble claims name = some d)
    ∧ (∀ i : Int, alookup claims name = some (ClaimValue.intV i) →
        claimDouble claims name = some (i : Rat))
    ∧ (alookup claims name = none → claimDouble claims name = none)
    ∧ (alookup claims name = some ClaimValue.nullV → claimDouble claims name = none)
    ∧ (∀ b : Bool, alookup claims name = some (ClaimValue.boolV b) →
        claimDouble claims name = none)
    ∧ (∀ s : Str, alookup claims name = some (ClaimValue.strV s) →
        claimDouble claims name = none) := by
  refine ⟨fun d h => ?_, fun i h => ?_, fun h => ?_, fun h => ?_, fun b h => ?_, fun s h => ?_⟩ <;>
    simp [claimDouble, h]

theorem claimDouble_spec_witness :
    claimDouble [(expKey, ClaimValue.intV 7)] expKey = some (7 : Rat) :=
  (claimDouble_spec [(expKey, ClaimValue.intV 7)] expKey).2.1 7 (by decide)

-- ===========================================================================
-- C7: method lookup with ANY fallback at the terminal node
-- ===========================================================================

/-- C7: at the node reached after consuming all segments, match returns the
RouteInfo registered under the request method if present, else the RouteInfo
registered under ANY, else the match fails (the two branches of getHandler,
and matchSegs on the empty segment list). -/
theorem getHandler_spec :
    (∀ (node : TrieNode) (method : HttpMethod) (r : RouteInfo),
        alookup node.handlers method = some r → node.getHandler method = some r)
    ∧ (∀ (node : TrieNode) (method : HttpMethod),
        alookup node.handlers method = none →
          node.getHandler method = alookup node.handlers HttpMethod.ANY)
    ∧ (∀ (method : HttpMethod) (node : TrieNode) (ctx : Ctx),
        matchSegs method node [] ctx = (node.getHandler method, ctx)) := by
  refine ⟨fun node method r h => ?_, fun node method h => ?_, fun method node ctx => ?_⟩
  · simp [TrieNode.getHandler, h]
  · simp [TrieNode.getHandler, h]
  · simp [matchSegs]

def healthRoute : RouteInfo :=
  { pattern := "/health".toList, method := HttpMethod.ANY, handler := 3, middlewares := [] }

theorem getHandler_spec_witness :
    (TrieNode.mk [] [] [(HttpMethod.ANY, healthRoute)]).getHandler HttpMethod.PUT
      = alookup [(HttpMethod.ANY, healthRoute)] HttpMethod.ANY :=
  getHandler_spec.2.1 (TrieNode.mk [] [] [(HttpMethod.ANY, healthRoute)]) HttpMethod.PUT
    (by decide)

-- ===========================================================================
-- C4: exp requirement of validatePolicy
-- ===========================================================================

/-- C4: with requireExp set and the issuer/audience checks passing, the exp
claim missing as an integer yields PolicyViolation, an expired exp (now
beyond exp plus leeway) yields Expired, and otherwise the exp check passes on
to the nbf stage; a double-valued exp with zero fractional part is accepted
as the corresponding integer by the integer accessor. -/
theorem validatePolicy_exp_spec (policy : Policy) (claims : ClaimMap) (now : Int)
    (hreq : policy.requireExp = true)
    (hiss : ∀ e, policy.expectedIss = some e → getStringClaim claims issKey = some e)
    (haud : ∀ a, policy.expectedAud = some a → getStringClaim claims audKey = some a) :
    (getIntValue claims expKey = none →
        validatePolicy now policy claims
          = makeError ErrorCode.PolicyViolation "exp claim is required by policy".toList)
    ∧ (∀ e : Int, getIntValue claims expKey = some e → now > e + policy.leewaySeconds →
        validatePolicy now policy claims
          = makeError ErrorCode.Expired "Token has expired".toList)
    ∧ (∀ e : Int, getIntValue claims expKey = some e → ¬ now > e + policy.leewaySeconds →
        validatePolicy now policy claims = validateNbf now policy claims)
    ∧ (∀ q : Rat, alookup claims expKey = some (ClaimValue.doubleV q) → (q.floor : Rat) = q →
        getIntValue claims expKey = some q.floor) := by
  have h1 : validatePolicy now policy claims = validateAud now policy claims := by
    unfold validatePolicy
    cases hI : policy.expectedIss with
    | none => rfl
    | some e => simp [hiss e hI]
  have h2 : validateAud now policy claims = validateExp now policy claims := by
    unfold validateAud
    cases hA : policy.expectedAud with
    | none => rfl
    | some a => simp [haud a hA]
  refine ⟨fun hnone => ?_, fun e he hgt => ?_, fun e he hle => ?_, fun q hq hfloor => ?_⟩
  · rw [h1, h2]; unfold validateExp; rw [hreq]; simp [hnone]
  · rw [h1, h2]; unfold validateExp; rw [hreq]; simp [he, hgt]
  · rw [h1, h2]; unfold validateExp; rw [hreq]; simp [he, hle]
  · unfold getIntValue; rw [hq]; simp [hfloor]

def expiredClaims : ClaimMap := [(expKey, ClaimValue.intV 10)]

def anyExpPolicy : Policy :=
  { allowedAlgs := [], expectedIss := none, expectedAud := none,
    leewaySeconds := 0, requireExp := true, requireNbf := false }

theorem validatePolicy_exp_spec_witness :
    validatePolicy 100 anyExpPolicy expiredClaims
      = makeError ErrorCode.Expired "Token has expired".toList :=
  (validatePolicy_exp_spec anyExpPolicy expiredClaims 100 rfl
      (fun e h => nomatch h) (fun a h => nomatch h)).2.1 10 (by decide) (by decide)

-- ===========================================================================
-- C8: middleware chain order and gating
-- ===========================================================================

theorem runChain_trace (l : List (Nat × Bool)) (h : Nat) (s : List Nat) :
    runChain (l.map traceMw) (traceHandler h) s = s ++ firedTrace l h := by
  induction l generalizing s with
  | nil => simp [runChain, traceHandler, firedTrace]
  | cons p rest ih =>
    obtain ⟨i, b⟩ := p
    cases b with
    | true => simp [runChain, traceMw, firedTrace, ih]
    | false => simp [runChain, traceMw, firedTrace]

/-- C8: Router::execute runs every global middleware in registration order,
then every per-route middleware in registration order, then the final
handler; each step past a middleware (handler included) runs exactly when
that middleware invokes its "next" capability. Shown on the instrumented
middleware family whose trace records each step that ran. -/
theorem routerExecute_order (globalSpec routeSpec : List (Nat × Bool)) (h : Nat)
    (s : List Nat) :
    routerExecute (globalSpec.map traceMw) (routeSpec.map traceMw) (traceHandler h) s
      = s ++ firedTrace (globalSpec ++ routeSpec) h := by
  unfold routerExecute
  rw [← List.map_append]
  exact runChain_trace (globalSpec ++ routeSpec) h s

-- ===========================================================================
-- C6: failing sign leaves the output token untouched
-- ===========================================================================

theorem signToken_ok_or_frame (crypto : CryptoProvider) (json : JsonProvider)
    (header : HeaderMap) (claims : ClaimMap) (outToken : Str) :
    (signToken crypto json header claims outToken).1.code = ErrorCode.Ok
    ∨ (signToken crypto json header claims outToken).2 = outToken := by
  unfold signToken
  repeat' split
  all_goals dsimp only
  all_goals try split_ifs
  all_goals simp [makeError]

/-- C6: whenever TokenBuilder::sign returns an error whose code is not Ok,
the output token argument holds exactly the value it held before the call. -/
theorem signToken_frame (crypto : CryptoProvider) (json : JsonProvider)
    (header : HeaderMap) (claims : ClaimMap) (outToken : Str)
    (hfail : (signToken crypto json header claims outToken).1.code ≠ ErrorCode.Ok) :
    (signToken crypto json header claims outToken).2 = outToken := by
  rcases signToken_ok_or_frame crypto json header claims outToken with h | h
  · exact absurd h hfail
  · exact h

theorem signToken_frame_witness :
    (signToken idCrypto stubJson [] [] "z".toList).2 = "z".toList :=
  signToken_frame idCrypto stubJson [] [] "z".toList (by decide)

-- ===========================================================================
-- C5: the emitted token of a fully successful sign
-- ===========================================================================

/-- C5: when the header carries a supported alg string and a kid string and
every provider call succeeds, sign emits headerB64 ++ "." ++ payloadB64 ++
"." ++ signatureB64, where the first two are the base64url encodings of the
serialized header and claim maps and the third encodes the provider's
signature over the bytes of headerB64 ++ "." ++ payloadB64 under (alg, kid). -/
theorem signToken_success (crypto : CryptoProvider) (json : JsonProvider)
    (header : HeaderMap) (claims : ClaimMap) (outToken : Str)
    (s : Str) (a : JwtAlg) (k : Str) (eH : Error) (hJson : Str) (eP : Error) (pJson : Str)
    (e3 : Error) (hB64 : Str) (e4 : Error) (pB64 : Str) (e5 : Error) (sig : Str)
    (e6 : Error) (sB64 : Str)
    (hAlg : getStringValue header algKey = some s)
    (hA : fromAlgString s = some a)
    (hKid : getStringValue header kidKey = some k)
    (hH : json.toJson header = (eH, hJson)) (hHc : eH.code = ErrorCode.Ok)
    (hP : json.toJson claims = (eP, pJson)) (hPc : eP.code = ErrorCode.Ok)
    (hE3 : crypto.base64UrlEncode hJson = (e3, hB64)) (h3c : e3.code = ErrorCode.Ok)
    (hE4 : crypto.base64UrlEncode pJson = (e4, pB64)) (h4c : e4.code = ErrorCode.Ok)
    (hS : crypto.sign a k (hB64 ++ ['.'] ++ pB64) = (e5, sig)) (h5c : e5.code = ErrorCode.Ok)
    (hE6 : crypto.base64UrlEncode sig = (e6, sB64)) (h6c : e6.code = ErrorCode.Ok) :
    signToken crypto json header claims outToken
      = (makeError ErrorCode.Ok, hB64 ++ ['.'] ++ pB64 ++ ['.'] ++ sB64) := by
  simp only [List.append_assoc, List.singleton_append] at hS
  simp [signToken, hAlg, hA, hKid, hH, hHc, hP, hPc, hE3, h3c, hE4, h4c, hS, h5c, hE6, h6c]

theorem signToken_success_witness :
    signToken idCrypto stubJson hs256Header [] [] = (makeError ErrorCode.Ok, "j.j.j.j".toList) := by
  have h := signToken_success idCrypto stubJson hs256Header [] []
    "HS256".toList JwtAlg.HS256 "k1".toList
    (makeError ErrorCode.Ok) "j".toList (makeError ErrorCode.Ok) "j".toList
    (makeError ErrorCode.Ok) "j".toList (makeError ErrorCode.Ok) "j".toList
    (makeError ErrorCode.Ok) ("j".toList ++ ['.'] ++ "j".toList)
    (makeError ErrorCode.Ok) ("j".toList ++ ['.'] ++ "j".toList)
    (by decide) (by decide) (by decide)
    rfl rfl rfl rfl rfl rfl rfl rfl rfl rfl rfl rfl
  exact h.trans (by decide)

-- ===========================================================================
-- C3: policy algorithm whitelist during verification
-- ===========================================================================

/-- C3: for a token whose three parts decode and parse and whose header
carries one of the four supported algorithm strings, a non-empty
policy.allowedAlgs not containing that algorithm makes verification fail
UnsupportedAlg (with ok false), while an empty policy.allowedAlgs lets every
supported algorithm pass this check, verification proceeding to the kid
stage. -/
theorem jwtVerify_allowedAlgs (crypto : CryptoProvider) (json : JsonProvider)
    (policy : Policy) (now : Int) (token hp pp sp : Str)
    (e1 e2 e3 e4 e5 : Error) (hb pb sb : Str) (hdr : HeaderMap) (clms : ClaimMap)
    (s : Str) (a : JwtAlg)
    (hsplit : splitDots token = [hp, pp, sp])
    (h1 : crypto.base64UrlDecode hp = (e1, hb)) (h1c : e1.code = ErrorCode.Ok)
    (h2 : crypto.base64UrlDecode pp = (e2, pb)) (h2c : e2.code = ErrorCode.Ok)
    (h3 : crypto.base64UrlDecode sp = (e3, sb)) (h3c : e3.code = ErrorCode.Ok)
    (h4 : json.parseHeader hb = (e4, hdr)) (h4c : e4.code = ErrorCode.Ok)
    (h5 : json.parseClaims pb = (e5, clms)) (h5c : e5.code = ErrorCode.Ok)
    (hAlgS : getStringValue hdr algKey = some s)
    (hA : fromAlgString s = some a) :
    (policy.allowedAlgs ≠ [] → a ∉ policy.allowedAlgs →
      (jwtVerify crypto json policy now token).error.code = ErrorCode.UnsupportedAlg
      ∧ (jwtVerify crypto json policy now token).ok = false)
    ∧ (policy.allowedAlgs = [] →
      jwtVerify crypto json policy now token
        = verifyKid crypto policy now
            { ok := false, error := makeError ErrorCode.Ok, rawToken := token,
              rawHeaderJson := hb, rawPayloadJson := pb, header := hdr, claims := clms }
            hp pp sb a) := by
  have hred : jwtVerify crypto json policy now token
      = verifyAlg crypto policy now
          { ok := false, error := makeError ErrorCode.Ok, rawToken := token,
            rawHeaderJson := hb, rawPayloadJson := pb, header := hdr, claims := clms }
          hp pp sb := by
    simp [jwtVerify, hsplit, verifyDecode, h1, h1c, h2, h2c, h3, h3c, h4, h4c, h5, h5c,
      emptyVerifier]
  constructor
  · intro hne hnm
    have hie : policy.allowedAlgs.isEmpty = false := by
      cases hl : policy.allowedAlgs with
      | nil => exact absurd hl hne
      | cons x l => rfl
    have hc : containsAlg policy.allowedAlgs a = false := by
      simp [containsAlg, hie, hnm]
    rw [hred]
    simp [verifyAlg, hAlgS, hA, hc, makeError]
  · intro hempty
    have hc : containsAlg policy.allowedAlgs a = true := by
      simp [containsAlg, hempty]
    rw [hred]
    simp [verifyAlg, hAlgS, hA, hc]

theorem jwtVerify_allowedAlgs_witness :
    (jwtVerify idCrypto stubJson rs256OnlyPolicy 0 "a.b.c".toList).error.code
        = ErrorCode.UnsupportedAlg
    ∧ (jwtVerify idCrypto stubJson rs256OnlyPolicy 0 "a.b.c".toList).ok = false :=
  (jwtVerify_allowedAlgs idCrypto stubJson rs256OnlyPolicy 0 "a.b.c".toList
      "a".toList "b".toList "c".toList
      (makeError ErrorCode.Ok) (makeError ErrorCode.Ok) (makeError ErrorCode.Ok)
      (makeError ErrorCode.Ok) (makeError ErrorCode.Ok)
      "a".toList "b".toList "c".toList hs256Header []
      "HS256".toList JwtAlg.HS256
      (by decide) rfl rfl rfl rfl rfl rfl rfl rfl rfl rfl
      (by decide) (by decide)).1 (by decide) (by decide)

-- ===========================================================================
-- C1: the InvalidFormat error is exactly the dot-count check
-- ===========================================================================

theorem validatePolicy_code_ne_format (now : Int) (policy : Policy) (claims : ClaimMap) :
    (validatePolicy now policy claims).code ≠ ErrorCode.InvalidFormat := by
  unfold validatePolicy validateAud validateExp validateNbf
  repeat' split
  all_goals simp [makeError]

theorem verifyKid_code_ne_format (crypto : CryptoProvider) (policy : Policy) (now : Int)
    (v : VerifierState) (hp pp sb : Str) (alg : JwtAlg)
    (hver : ∀ a k d sg, (crypto.verify a k d sg).code ≠ ErrorCode.InvalidFormat) :
    (verifyKid crypto policy now v hp pp sb alg).error.code ≠ ErrorCode.InvalidFormat := by
  unfold verifyKid
  repeat' split
  all_goals dsimp only
  all_goals try split_ifs
  all_goals simp [makeError]
  all_goals first
  | exact hver _ _ _ _
  | exact validatePolicy_code_ne_format _ _ _

theorem verifyAlg_code_ne_format (crypto : CryptoProvider) (policy : Policy) (now : Int)
    (v : VerifierState) (hp pp sb : Str)
    (hver : ∀ a k d sg, (crypto.verify a k d sg).code ≠ ErrorCode.InvalidFormat) :
    (verifyAlg crypto policy now v hp pp sb).error.code ≠ ErrorCode.InvalidFormat := by
  unfold verifyAlg
  repeat' split
  all_goals first
  | exact verifyKid_code_ne_format crypto policy now v hp pp sb _ hver
  | simp [makeError]

theorem verifyDecode_code_ne_format (crypto : CryptoProvider) (json : JsonProvider)
    (policy : Policy) (now : Int) (v : VerifierState) (hp pp sp : Str)
    (hdec : ∀ t, (crypto.base64UrlDecode t).1.code ≠ ErrorCode.InvalidFormat)
    (hph : ∀ t, (json.parseHeader t).1.code ≠ ErrorCode.InvalidFormat)
    (hpc : ∀ t, (json.parseClaims t).1.code ≠ ErrorCode.InvalidFormat)
    (hver : ∀ a k d sg, (crypto.verify a k d sg).code ≠ ErrorCode.InvalidFormat) :
    (verifyDecode crypto json policy now v hp pp sp).error.code ≠ ErrorCode.InvalidFormat := by
  unfold verifyDecode
  dsimp only
  split_ifs
  all_goals first
  | exact verifyAlg_code_ne_format crypto policy now _ hp pp _ hver
  | exact hdec _
  | exact hph _
  | exact hpc _

/-- C1 (amended): provided the providers themselves never report
InvalidFormat, Jwt::verify fails with InvalidFormat exactly when splitting
the token on '.' does not yield exactly three parts (equivalently, the token
does not contain exactly two dots); the parts are not required to be
non-empty. Whenever the split check fails, the verifier's ok flag is false. -/
theorem jwtVerify_format_spec (crypto : CryptoProvider) (json : JsonProvider)
    (policy : Policy) (now : Int) (token : Str)
    (hdec : ∀ t, (crypto.base64UrlDecode t).1.code ≠ ErrorCode.InvalidFormat)
    (hph : ∀ t, (json.parseHeader t).1.code ≠ ErrorCode.InvalidFormat)
    (hpc : ∀ t, (json.parseClaims t).1.code ≠ ErrorCode.InvalidFormat)
    (hver : ∀ a k d sg, (crypto.verify a k d sg).code ≠ ErrorCode.InvalidFormat) :
    ((jwtVerify crypto json policy now token).error.code = ErrorCode.InvalidFormat
      ↔ (splitDots token).length ≠ 3)
    ∧ ((splitDots token).length ≠ 3 → (jwtVerify crypto json policy now token).ok = false) := by
  rcases hs : splitDots token with _ | ⟨a, _ | ⟨b, _ | ⟨c, _ | ⟨d, l⟩⟩⟩⟩
  · constructor
    · simp [jwtVerify, hs, makeError]
    · intro _; simp [jwtVerify, hs, emptyVerifier]
  · constructor
    · simp [jwtVerify, hs, makeError]
    · intro _; simp [jwtVerify, hs, emptyVerifier]
  · constructor
    · simp [jwtVerify, hs, makeError]
    · intro _; simp [jwtVerify, hs, emptyVerifier]
  · have hne := verifyDecode_code_ne_format crypto json policy now
      { emptyVerifier with rawToken := token } a b c hdec hph hpc hver
    constructor
    · simp only [jwtVerify, hs]
      constructor
      · intro h; exact absurd h hne
      · intro h; exact absurd rfl h
    · intro h; exact absurd rfl h
  · constructor
    · simp [jwtVerify, hs, makeError]
    · intro _; simp [jwtVerify, hs, emptyVerifier]

theorem jwtVerify_format_spec_witness :
    (jwtVerify idCrypto stubJson anyAlgPolicy 0 "abc".toList).error.code
      = ErrorCode.InvalidFormat :=
  ((jwtVerify_format_spec idCrypto stubJson anyAlgPolicy 0 "abc".toList
      (fun t => by simp [idCrypto, makeError])
      (fun t => by simp [stubJson, makeError])
      (fun t => by simp [stubJson, makeError])
      (fun a k d sg => by simp [idCrypto, makeError])).1.mpr (by decide))

/-- C1 counterexample: the token ".." splits into exactly three parts, every
part empty, yet verification does not fail with InvalidFormat — the format
check passes and the failure is the provider's InvalidJson on the (empty)
decoded header, contradicting the claim that empty parts yield
InvalidFormat. -/
theorem jwtVerify_emptyParts_counterexample :
    splitDots "..".toList = [[], [], []]
    ∧ (jwtVerify idCrypto rejectingJson anyAlgPolicy 0 "..".toList).error.code
        = ErrorCode.InvalidJson
    ∧ (jwtVerify idCrypto rejectingJson anyAlgPolicy 0 "..".toList).error.code
        ≠ ErrorCode.InvalidFormat := by
  refine ⟨by decide, by decide, by decide⟩


-- ===========================================================================
-- C10: path normalization
-- ===========================================================================
theorem splitGo_cons (c : Char) (xs : Str) (cur : Str) : splitGo (c :: xs) cur
    = if c = '/' then
        cur.reverse :: (match xs with | [] => [] | _ :: _ => splitGo xs [])
      else splitGo xs (c :: cur) := rfl

theorem splitGo_concat_slash (p : Str) (hne : p ≠ []) (hlast : p.getLast? ≠ some '/') :
    ∀ cur : Str, splitGo (p ++ ['/']) cur = splitGo p cur := by
  induction p with
  | nil => exact absurd rfl hne
  | cons c rest ih =>
    intro cur
    cases rest with
    | nil =>
      have hc : c ≠ '/' := by
        intro h
        exact hlast (by simp [h])
      simp [splitGo, hc]
    | cons d rest2 =>
      have hlast2 : (d :: rest2).getLast? ≠ some '/' := by
        simpa [List.getLast?_cons_cons] using hlast
      have hih := ih (by simp) hlast2
      have hih0 : splitGo (d :: (rest2 ++ ['/'])) [] = splitGo (d :: rest2) [] := by
        simpa using hih []
      by_cases hc : c = '/'
      · subst hc
        show splitGo ('/' :: (d :: rest2 ++ ['/'])) cur = _
        rw [splitGo_cons, splitGo_cons]
        simp [hih0]
      · show splitGo (c :: (d :: rest2 ++ ['/'])) cur = _
        rw [splitGo_cons, splitGo_cons]
        simp only [if_neg hc]
        exact hih (c :: cur)

theorem splitPath_plain (c : Char) (rest : Str) (hc : c ≠ '/')
    (hend : (c :: rest).getLast? ≠ some '/') :
    splitPath (c :: rest) = splitGo (c :: rest) [] := by
  simp [splitPath, hc, hend]

theorem splitPath_drop_lead (c : Char) (rest : Str) (hc : c ≠ '/')
    (hend : (c :: rest).getLast? ≠ some '/') :
    splitPath ('/' :: c :: rest) = splitGo (c :: rest) [] := by
  simp [splitPath, hc, hend, List.getLast?_cons_cons]

theorem splitPath_one_trailing (c : Char) (rest : Str) (hc : c ≠ '/')
    (hend : (c :: rest).getLast? ≠ some '/') :
    splitPath ((c :: rest) ++ ['/']) = splitGo (c :: rest) [] := by
  unfold splitPath
  rw [if_pos ⟨List.getLast?_concat _, by simp⟩]
  rw [List.dropLast_concat]
  simp [hc]

theorem splitPath_two_trailing (c : Char) (rest : Str) (hc : c ≠ '/')
    (hend : (c :: rest).getLast? ≠ some '/') :
    splitPath ((c :: rest) ++ ['/', '/']) = splitGo (c :: rest) [] := by
  have hassoc : (c :: rest) ++ ['/', '/'] = ((c :: rest) ++ ['/']) ++ ['/'] := by simp
  rw [hassoc]
  unfold splitPath
  rw [if_pos ⟨List.getLast?_concat _, by simp⟩]
  rw [List.dropLast_concat]
  have hgo := splitGo_concat_slash (c :: rest) (by simp) hend ([] : Str)
  simp only [List.cons_append] at hgo
  simp [hc, hgo]


/-- C10 (amended): path normalization strips exactly one leading slash and at
most one trailing slash (trailing only when the path is longer than one
character), so for a path p with neither a leading nor a trailing slash,
matching "/" ++ p, p ++ "/", and p itself traverses the same segment list
with the same result — and p ++ "//" is also equivalent, because the split
loop never emits a trailing empty segment. -/
theorem splitPath_normalization (p : Str) (hstart : p.head? ≠ some '/')
    (hend : p.getLast? ≠ some '/') :
    (splitPath ('/' :: p) = splitPath p
      ∧ splitPath (p ++ ['/']) = splitPath p
      ∧ splitPath (p ++ ['/', '/']) = splitPath p)
    ∧ ∀ (root : TrieNode) (m : HttpMethod) (ctx : Ctx),
        matchRoute root m ('/' :: p) ctx = matchRoute root m p ctx
        ∧ matchRoute root m (p ++ ['/']) ctx = matchRoute root m p ctx
        ∧ matchRoute root m (p ++ ['/', '/']) ctx = matchRoute root m p ctx := by
  have key : splitPath ('/' :: p) = splitPath p
      ∧ splitPath (p ++ ['/']) = splitPath p
      ∧ splitPath (p ++ ['/', '/']) = splitPath p := by
    cases p with
    | nil => exact ⟨rfl, rfl, rfl⟩
    | cons c rest =>
      have hc : c ≠ '/' := by
        intro h; exact hstart (by simp [h])
      have hp := splitPath_plain c rest hc hend
      exact ⟨(splitPath_drop_lead c rest hc hend).trans hp.symm,
             (splitPath_one_trailing c rest hc hend).trans hp.symm,
             (splitPath_two_trailing c rest hc hend).trans hp.symm⟩
  refine ⟨key, fun root m ctx => ⟨?_, ?_, ?_⟩⟩ <;>
    simp [matchRoute, key.1, key.2.1, key.2.2]

theorem splitPath_normalization_witness :
    splitPath ("ab/c".toList ++ ['/', '/']) = splitPath "ab/c".toList :=
  ((splitPath_normalization "ab/c".toList (by decide) (by decide)).1).2.2

/-- C10 counterexample: "a//" does not gain an extra empty final segment —
normalization plus the split loop yield the same single segment as "a", and a
purely literal route (with no GENERIC parameter anywhere in the trie) still
matches it. -/
theorem splitPath_two_trailing_counterexample :
    splitPath "a//".toList = [['a']]
    ∧ splitPath "a//".toList = splitPath "a".toList
    ∧ (matchRoute (routerAdd emptyNode HttpMethod.GET "/a".toList 7) HttpMethod.GET
        "a//".toList []).1
      = some { pattern := "/a".toList, method := HttpMethod.GET, handler := 7,
               middlewares := [] } := by
  refine ⟨by decide, by decide, by decide⟩

-- ===========================================================================
-- C2: matching precedence — literal first, then typed parameters by rank
-- ===========================================================================

def rankLt (a b : TypedParamEntry) : Prop := rank a.2.1 < rank b.2.1

theorem rank_inj : ∀ a b : ParamType, rank a = rank b → a = b := by
  intro a b h
  cases a <;> cases b <;> first | rfl | simp [rank] at h

theorem placeTyped_mem (l : List TypedParamEntry) (nm : Str) (t : ParamType)
    (f : TrieNode → TrieNode) :
    ∀ z ∈ placeTyped l nm t f, z.2.1 = t ∨ ∃ w ∈ l, z.2.1 = w.2.1 := by
  induction l with
  | nil =>
    intro z hz
    simp [placeTyped] at hz
    subst hz
    exact Or.inl rfl
  | cons hd rest ih =>
    obtain ⟨n0, t0, c0⟩ := hd
    intro z hz
    by_cases h1 : rank t0 < rank t
    · simp only [placeTyped, if_pos h1] at hz
      rcases List.mem_cons.mp hz with rfl | hz2
      · exact Or.inr ⟨(n0, t0, c0), by simp, rfl⟩
      · rcases ih z hz2 with h | ⟨w, hw, he⟩
        · exact Or.inl h
        · exact Or.inr ⟨w, by simp [hw], he⟩
    · by_cases h2 : t0 = t
      · simp only [placeTyped, if_neg h1, if_pos h2] at hz
        rcases List.mem_cons.mp hz with rfl | hz2
        · exact Or.inl h2
        · exact Or.inr ⟨z, by simp [hz2], rfl⟩
      · simp only [placeTyped, if_neg h1, if_neg h2] at hz
        rcases List.mem_cons.mp hz with rfl | hz2
        · exact Or.inl rfl
        · exact Or.inr ⟨z, hz2, rfl⟩

theorem placeTyped_pairwise (l : List TypedParamEntry) (nm : Str) (t : ParamType)
    (f : TrieNode → TrieNode) (hs : List.Pairwise rankLt l) :
    List.Pairwise rankLt (placeTyped l nm t f) := by
  induction l with
  | nil => simp [placeTyped, rankLt]
  | cons hd rest ih =>
    obtain ⟨n0, t0, c0⟩ := hd
    rcases List.pairwise_cons.mp hs with ⟨hhd, htl⟩
    by_cases h1 : rank t0 < rank t
    · simp only [placeTyped, if_pos h1]
      refine List.pairwise_cons.mpr ⟨?_, ih htl⟩
      intro z hz
      rcases placeTyped_mem rest nm t f z hz with h | ⟨w, hw, he⟩
      · show rank t0 < rank z.2.1
        rw [h]; exact h1
      · show rank t0 < rank z.2.1
        rw [he]; exact hhd w hw
    · by_cases h2 : t0 = t
      · simp only [placeTyped, if_neg h1, if_pos h2]
        exact List.pairwise_cons.mpr ⟨fun z hz => hhd z hz, htl⟩
      · simp only [placeTyped, if_neg h1, if_neg h2]
        have hlt : rank t < rank t0 := by
          have hne : rank t ≠ rank t0 := fun h => h2 (rank_inj t0 t h.symm)
          omega
        refine List.pairwise_cons.mpr ⟨?_, hs⟩
        intro z hz
        rcases List.mem_cons.mp hz with rfl | hz2
        · exact hlt
        · exact lt_trans hlt (hhd z hz2)

theorem firstValidating_accepts (l : List TypedParamEntry) (seg : Str)
    (nm : Str) (t : ParamType) (next : TrieNode)
    (h : firstValidating l seg = some (nm, t, next)) : validateParam t seg = true := by
  induction l with
  | nil => simp [firstValidating] at h
  | cons hd rest ih =>
    obtain ⟨n0, t0, c0⟩ := hd
    by_cases hv : validateParam t0 seg
    · simp only [firstValidating, if_pos hv, Option.some.injEq, Prod.mk.injEq] at h
      obtain ⟨-, rfl, -⟩ := h
      exact hv
    · simp only [firstValidating, if_neg hv] at h
      exact ih h

theorem literal_wins_typed_first (x L s v : Str) (T : ParamType)
    (p1 p2 path : Str) (m : HttpMethod) (h1 h2 : Nat) (ctx : Ctx)
    (hxp : parseSegment x = ⟨false, x, ParamType.GENERIC⟩)
    (hLp : parseSegment L = ⟨false, L, ParamType.GENERIC⟩)
    (hsp : parseSegment s = ⟨true, v, T⟩)
    (hp1 : splitPath p1 = [x, s]) (hp2 : splitPath p2 = [x, L])
    (hpath : splitPath path = [x, L]) :
    (matchRoute (routerAdd (routerAdd emptyNode m p1 h1) m p2 h2) m path ctx).1
      = some { pattern := p2, method := m, handler := h2, middlewares := [] } := by
  have hA1 : routerAdd emptyNode m p1 h1
      = TrieNode.mk
          [(x, TrieNode.mk []
              [(v, T, TrieNode.mk [] [] [(m, { pattern := p1, method := m, handler := h1, middlewares := [] })])]
              [])] [] [] := by
    simp [routerAdd, hp1, addSegs, hxp, hsp, placeTyped, setAssoc, alookup, emptyNode,
      TrieNode.literals, TrieNode.typedParams, TrieNode.handlers]
  have hA2 : routerAdd (routerAdd emptyNode m p1 h1) m p2 h2
      = TrieNode.mk
          [(x, TrieNode.mk
              [(L, TrieNode.mk [] [] [(m, { pattern := p2, method := m, handler := h2, middlewares := [] })])]
              [(v, T, TrieNode.mk [] [] [(m, { pattern := p1, method := m, handler := h1, middlewares := [] })])]
              [])] [] [] := by
    rw [hA1]
    simp [routerAdd, hp2, addSegs, hxp, hLp, setAssoc, alookup, emptyNode,
      TrieNode.literals, TrieNode.typedParams, TrieNode.handlers]
  rw [hA2]
  simp [matchRoute, hpath, matchSegs, alookup, TrieNode.literals, TrieNode.getHandler,
    TrieNode.handlers]

theorem literal_wins_literal_first (x L s v : Str) (T : ParamType)
    (p1 p2 path : Str) (m : HttpMethod) (h1 h2 : Nat) (ctx : Ctx)
    (hxp : parseSegment x = ⟨false, x, ParamType.GENERIC⟩)
    (hLp : parseSegment L = ⟨false, L, ParamType.GENERIC⟩)
    (hsp : parseSegment s = ⟨true, v, T⟩)
    (hp1 : splitPath p1 = [x, s]) (hp2 : splitPath p2 = [x, L])
    (hpath : splitPath path = [x, L]) :
    (matchRoute (routerAdd (routerAdd emptyNode m p2 h2) m p1 h1) m path ctx).1
      = some { pattern := p2, method := m, handler := h2, middlewares := [] } := by
  have hB1 : routerAdd emptyNode m p2 h2
      = TrieNode.mk
          [(x, TrieNode.mk
              [(L, TrieNode.mk [] [] [(m, { pattern := p2, method := m, handler := h2, middlewares := [] })])]
              [] [])] [] [] := by
    simp [routerAdd, hp2, addSegs, hxp, hLp, setAssoc, alookup, emptyNode,
      TrieNode.literals, TrieNode.typedParams, TrieNode.handlers]
  have hB2 : routerAdd (routerAdd emptyNode m p2 h2) m p1 h1
      = TrieNode.mk
          [(x, TrieNode.mk
              [(L, TrieNode.mk [] [] [(m, { pattern := p2, method := m, handler := h2, middlewares := [] })])]
              [(v, T, TrieNode.mk [] [] [(m, { pattern := p1, method := m, handler := h1, middlewares := [] })])]
              [])] [] [] := by
    rw [hB1]
    simp [routerAdd, hp1, addSegs, hxp, hsp, placeTyped, setAssoc, alookup, emptyNode,
      TrieNode.literals, TrieNode.typedParams, TrieNode.handlers]
  rw [hB2]
  simp [matchRoute, hpath, matchSegs, alookup, TrieNode.literals, TrieNode.getHandler,
    TrieNode.handlers]

/-- C2: within one matching step an exact literal child is taken
unconditionally (the node parameters are never consulted for that segment);
otherwise the first TypedParam in stored order whose validator accepts the
segment wins, recording name → raw segment text on the context before
descending; insertion keeps the TypedParam sequence pairwise sorted by
ascending rank (int, base64id, string, uuid, float, generic), so the stored
order is the rank order; and in particular, given a typed route /x/<v:T> and
a literal route /x/L registered in either order, matching /x/L returns the
literal route. -/
theorem match_precedence_spec :
    (∀ (method : HttpMethod) (node : TrieNode) (seg : Str) (rest : List Str)
        (ctx : Ctx) (child : TrieNode),
      alookup node.literals seg = some child →
      matchSegs method node (seg :: rest) ctx = matchSegs method child rest ctx)
    ∧ (∀ (method : HttpMethod) (node : TrieNode) (seg : Str) (rest : List Str)
        (ctx : Ctx) (nm : Str) (t : ParamType) (next : TrieNode),
      alookup node.literals seg = none →
      firstValidating node.typedParams seg = some (nm, t, next) →
      validateParam t seg = true
      ∧ matchSegs method node (seg :: rest) ctx
          = matchSegs method next rest (setParam ctx nm seg))
    ∧ (∀ (tps : List TypedParamEntry) (nm : Str) (t : ParamType)
        (f : TrieNode → TrieNode),
      List.Pairwise rankLt tps → List.Pairwise rankLt (placeTyped tps nm t f))
    ∧ (∀ (x L s v : Str) (T : ParamType) (p1 p2 path : Str) (m : HttpMethod)
        (h1 h2 : Nat) (ctx : Ctx),
      parseSegment x = ⟨false, x, ParamType.GENERIC⟩ →
      parseSegment L = ⟨false, L, ParamType.GENERIC⟩ →
      parseSegment s = ⟨true, v, T⟩ →
      splitPath p1 = [x, s] → splitPath p2 = [x, L] → splitPath path = [x, L] →
      (matchRoute (routerAdd (routerAdd emptyNode m p1 h1) m p2 h2) m path ctx).1
          = some { pattern := p2, method := m, handler := h2, middlewares := [] }
      ∧ (matchRoute (routerAdd (routerAdd emptyNode m p2 h2) m p1 h1) m path ctx).1
          = some { pattern := p2, method := m, handler := h2, middlewares := [] }) := by
  refine ⟨?_, ?_, ?_, ?_⟩
  · intro method node seg rest ctx child h
    simp [matchSegs, h]
  · intro method node seg rest ctx nm t next h hf
    exact ⟨firstValidating_accepts node.typedParams seg nm t next hf,
           by simp [matchSegs, h, hf]⟩
  · exact fun tps nm t f hs => placeTyped_pairwise tps nm t f hs
  · intro x L s v T p1 p2 path m h1 h2 ctx hxp hLp hsp hq1 hq2 hqp
    exact ⟨literal_wins_typed_first x L s v T p1 p2 path m h1 h2 ctx
             hxp hLp hsp hq1 hq2 hqp,
           literal_wins_literal_first x L s v T p1 p2 path m h1 h2 ctx
             hxp hLp hsp hq1 hq2 hqp⟩

theorem match_precedence_spec_witness :
    (matchRoute (routerAdd (routerAdd emptyNode HttpMethod.GET "/x/<v:int>".toList 1)
        HttpMethod.GET "/x/L".toList 2) HttpMethod.GET "/x/L".toList []).1
      = some { pattern := "/x/L".toList, method := HttpMethod.GET, handler := 2,
               middlewares := [] } :=
  (match_precedence_spec.2.2.2 "x".toList "L".toList "<v:int>".toList "v".toList
      ParamType.INT "/x/<v:int>".toList "/x/L".toList "/x/L".toList HttpMethod.GET 1 2 []
      (by decide) (by decide) (by decide) (by decide) (by decide) (by decide)).1
